import Mathlib

/-!
Verification of the codex-fence core against its design specification.

The definitions below are shallow embeddings of the Rust sources:
`src/connectors.rs`, `src/catalog/index.rs`, `src/lib.rs`,
`src/bin/probe_matrix.rs`, `src/bin/fence_bang.rs`, `src/bin/probe_exec.rs`
and `src/bin/emit_record.rs`.  Paths are strings or lists of path
components, `OsString` becomes `String`, fallible Rust functions returning
`anyhow::Result` become `Except String`, and ambient process state that a
function reads (the PATH lookup for the external CLI, environment
variables) is threaded as an explicit argument.  Definitions that embed
code whose source file is not part of the crate snapshot are modelled from
the specification and marked as such in their doc comments.
-/

namespace CodexFence

/-! ## Connector registry (src/connectors.rs) -/

inductive ConnectorKind where
| Ambient : ConnectorKind
| ExternalCli : ConnectorKind
deriving DecidableEq, Repr

inductive RunMode where
| Baseline : RunMode
| CodexSandbox : RunMode
| CodexFull : RunMode
deriving DecidableEq, Repr

/-- `RunMode::as_str`. -/
def RunMode.as_str : RunMode → String
| RunMode.Baseline => "baseline"
| RunMode.CodexSandbox => "codex-sandbox"
| RunMode.CodexFull => "codex-full"

/-- `RunMode::connector`: `Baseline | CodexFull => Ambient`, `CodexSandbox => ExternalCli`. -/
def RunMode.connector : RunMode → ConnectorKind
| RunMode.Baseline => ConnectorKind.Ambient
| RunMode.CodexFull => ConnectorKind.Ambient
| RunMode.CodexSandbox => ConnectorKind.ExternalCli

/-- `RunMode::is_external`. -/
def RunMode.is_external (m : RunMode) : Bool :=
m.connector = ConnectorKind.ExternalCli

/-- `RunMode::sandbox_env`: default profile per mode, overridable. -/
def RunMode.sandbox_env (m : RunMode) (override_value : Option String) : String :=
match m with
| RunMode.Baseline => ""
| RunMode.CodexSandbox => override_value.getD "workspace-write"
| RunMode.CodexFull => override_value.getD "danger-full-access"

/-- `TryFrom<&str> for RunMode`. -/
def RunMode.tryFrom (value : String) : Except String RunMode :=
if value = "baseline" then Except.ok RunMode.Baseline
else if value = "codex-sandbox" then Except.ok RunMode.CodexSandbox
else if value = "codex-full" then Except.ok RunMode.CodexFull
else Except.error ("Unknown mode: " ++ value)

/-- Ambient host state read by the planner: whether the external CLI is
discoverable on PATH (`external_cli_present`), the resolved name of the
external runner (`external_cli_command`), and the rest of the process
environment, which the planner must not consult. -/
structure HostEnv where
externalCliPresent : Bool
externalCliCommand : String
otherEnv : List (String × String)
deriving DecidableEq, Repr

/-- `external_platform_target`: only Darwin and Linux are recognized. -/
def external_platform_target (platform : String) : Except String String :=
if platform = "Darwin" then Except.ok "macos"
else if platform = "Linux" then Except.ok "linux"
else Except.error ("Unsupported platform for external sandbox mode: " ++ platform)

/-- `RunMode::platform_target`. -/
def RunMode.platform_target (m : RunMode) (platform : String) : Except String (Option String) :=
match m with
| RunMode.CodexSandbox => (external_platform_target platform).map Option.some
| RunMode.Baseline => Except.ok none
| RunMode.CodexFull => Except.ok none

/-- `ensure_external_available`: reads the ambient PATH lookup. -/
def ensure_external_available (env : HostEnv) : Except String Unit :=
if env.externalCliPresent then Except.ok ()
else Except.error ("external CLI '" ++ env.externalCliCommand ++
  "' not found; codex-* modes require the configured external runner. Install codex (or override the runner) or run baseline instead.")

/-- `RunMode::ensure_connector_present`. -/
def RunMode.ensure_connector_present (m : RunMode) (env : HostEnv) : Except String Unit :=
match m.connector with
| ConnectorKind.Ambient => Except.ok ()
| ConnectorKind.ExternalCli => ensure_external_available env

structure CommandSpec where
program : String
args : List String
deriving DecidableEq, Repr

/-- `RunMode::command_spec`: direct execution for `Baseline`/`CodexFull`,
external CLI wrapping for `CodexSandbox`. -/
def RunMode.command_spec (m : RunMode) (env : HostEnv) (platform_target : Option String)
    (probe_path : String) : Except String CommandSpec :=
let external_cli := env.externalCliCommand
match m with
| RunMode.Baseline => Except.ok { program := probe_path, args := [] }
| RunMode.CodexFull => Except.ok { program := probe_path, args := [] }
| RunMode.CodexSandbox =>
  match platform_target with
  | none => Except.error "missing external platform target"
  | some target =>
    Except.ok { program := external_cli,
                args := ["sandbox", target, "--full-auto", "--", probe_path] }

inductive PreflightPlan where
| ExternalTmp : (platform_target : String) → PreflightPlan
deriving DecidableEq, Repr

/-- `RunMode::preflight_plan`: only `CodexSandbox` carries a preflight plan. -/
def RunMode.preflight_plan (m : RunMode) (platform_target : Option String) :
    Except String (Option PreflightPlan) :=
match m with
| RunMode.CodexSandbox =>
  match platform_target with
  | none => Except.error "missing external platform target"
  | some target => Except.ok (some (PreflightPlan.ExternalTmp target))
| RunMode.Baseline => Except.ok none
| RunMode.CodexFull => Except.ok none

structure ModePlan where
run_mode : RunMode
connector : ConnectorKind
sandbox_env : String
command : CommandSpec
preflight : Option PreflightPlan
deriving DecidableEq, Repr

/-- `plan_for_mode`: parse the mode, check connector availability, compute
platform target, sandbox value, command and preflight plan. -/
def plan_for_mode (env : HostEnv) (requested_mode : String) (platform : String)
    (probe_path : String) (sandbox_override : Option String) : Except String ModePlan := do
let run_mode ← RunMode.tryFrom requested_mode
let _ ← run_mode.ensure_connector_present env
let platform_target ← run_mode.platform_target platform
let sandbox_env := run_mode.sandbox_env sandbox_override
let command ← run_mode.command_spec env platform_target probe_path
let preflight ← run_mode.preflight_plan platform_target
Except.ok { run_mode := run_mode, connector := run_mode.connector,
            sandbox_env := sandbox_env, command := command, preflight := preflight }

/-! ## Boundary object accessor (src/lib.rs) -/

structure CapabilitySnapshot where
id : String
category : String
layer : String
deriving DecidableEq, Repr

structure CapabilityContext where
primary : CapabilitySnapshot
secondary : List CapabilitySnapshot
deriving DecidableEq, Repr

structure ProbeInfo where
id : String
version : String
primary_capability_id : String
secondary_capability_ids : List String
deriving DecidableEq, Repr

structure RunInfo where
mode : String
workspace_root : Option String
command : String
deriving DecidableEq, Repr

structure OperationInfo where
category : String
verb : String
target : String
deriving DecidableEq, Repr

structure ResultInfo where
observed_result : String
message : Option String
deriving DecidableEq, Repr

structure BoundaryObject where
schema_version : String
capabilities_schema_version : Option String
probe : ProbeInfo
run : RunInfo
result : ResultInfo
operation : OperationInfo
capability_context : Option CapabilityContext
deriving DecidableEq, Repr

/-- `BoundaryObject::primary_capability_id`: capability-context snapshot id
when present, otherwise the probe's declared primary capability id. -/
def BoundaryObject.primary_capability_id (b : BoundaryObject) : Option String :=
match b.capability_context with
| some ctx => some ctx.primary.id
| none => some b.probe.primary_capability_id

/-! ## Capability catalog and index (src/catalog/index.rs)

The catalog record types mirror `src/catalog/model.rs` (not part of the
snapshot; their shape is fixed by the fields `index.rs` reads and by the
data-model section of the specification).  BTree maps and sets become
association lists and key lists; only key membership matters to the
validation logic under verification. -/

structure CapabilitySource where
doc : String
deriving DecidableEq, Repr

structure Capability where
id : String
category : String
layer : String
description : String
sources : List CapabilitySource
deriving DecidableEq, Repr

structure PolicyLayer where
id : String
deriving DecidableEq, Repr

structure Scope where
policy_layers : List PolicyLayer
categories : List (String × String)
deriving DecidableEq, Repr

structure CatalogMetadata where
key : String
title : String
labels : List String
deriving DecidableEq, Repr

structure CapabilityCatalog where
schema_version : String
catalog : CatalogMetadata
scope : Scope
docs : List (String × String)
capabilities : List Capability
deriving DecidableEq, Repr

/-- `DEFAULT_SCHEMA_VERSION`. -/
def DEFAULT_SCHEMA_VERSION : String := "sandbox_catalog_v1"

/-- Embedding of Rust's `str::trim`: drop whitespace from both ends
(structurally recursive so that concrete instances evaluate). -/
def strTrim (s : String) : String :=
  String.mk (((s.toList.dropWhile Char.isWhitespace).reverse.dropWhile
    Char.isWhitespace).reverse)

/-- Embedding of Rust's `str::split(sep)` on a single separator character. -/
def splitOnChar (c : Char) : List Char → List (List Char)
  | [] => [[]]
  | x :: xs =>
    if x = c then [] :: splitOnChar c xs
    else
      match splitOnChar c xs with
      | [] => [[x]]
      | g :: gs => (x :: g) :: gs

/-- The character class `[A-Za-z0-9_.-]` used for schema versions and
catalog keys. -/
def identChar (c : Char) : Bool :=
c.isAlphanum ∨ c = '_' ∨ c = '.' ∨ c = '-'

/-- `allowed_schema_versions`: the pinned default plus the comma-separated
entries of the `FENCE_ALLOWED_CATALOG_SCHEMAS` environment variable
(trimmed, empties dropped).  The environment read is threaded as the
`envRaw` argument. -/
def allowed_schema_versions (envRaw : Option String) : List String :=
DEFAULT_SCHEMA_VERSION ::
  (match envRaw with
  | none => []
  | some raw => ((splitOnChar (Char.ofNat 44) raw.toList).map (fun cs => strTrim (String.mk cs))).filter (fun s => s ≠ ""))

/-- `validate_schema_version`: non-empty, restricted charset, and member of
the allowed set, in that order. -/
def validate_schema_version (envRaw : Option String) (schema_version : String) :
    Except String Unit :=
if schema_version = "" then
  Except.error "schema_version must not be empty"
else if ¬ schema_version.toList.all identChar then
  Except.error ("schema_version must match the identifier charset, got " ++ schema_version)
else if ¬ (allowed_schema_versions envRaw).contains schema_version then
  Except.error ("schema_version '" ++ schema_version ++ "' not in allowed set")
else Except.ok ()

/-- `validate_catalog_key`. -/
def validate_catalog_key (key : String) : Except String Unit :=
if key = "" then Except.error "catalog.key must not be empty"
else if ¬ key.toList.all identChar then
  Except.error ("catalog.key must match the identifier charset, got " ++ key)
else Except.ok ()

/-- `validate_catalog_metadata`. -/
def validate_catalog_metadata (meta : CatalogMetadata) : Except String Unit := do
let _ ← validate_catalog_key meta.key
if strTrim meta.title = "" then
  Except.error "catalog.title must not be empty"
else if meta.labels.any (fun label => strTrim label = "") then
  Except.error "catalog.labels must not contain empty entries"
else Except.ok ()

/-- The per-capability validation step of `build_index`: reject empty ids,
duplicate ids, and references to undeclared categories, layers or doc keys,
then append the entry to the id-keyed map. -/
def build_index_step (category_ids layer_ids doc_keys : List String)
    (acc : List (String × Capability)) (cap : Capability) :
    Except String (List (String × Capability)) :=
if strTrim cap.id = "" then
  Except.error "encountered capability with no id"
else if (acc.map Prod.fst).contains cap.id then
  Except.error ("duplicate capability id " ++ cap.id)
else if ¬ category_ids.contains cap.category then
  Except.error ("capability " ++ cap.id ++ " references unknown category " ++ cap.category)
else if ¬ layer_ids.contains cap.layer then
  Except.error ("capability " ++ cap.id ++ " references unknown layer " ++ cap.layer)
else if ¬ cap.sources.all (fun source => doc_keys.contains source.doc) then
  Except.error ("capability " ++ cap.id ++ " references an unknown doc")
else Except.ok (acc ++ [(cap.id, cap)])

/-- The policy-layer collection loop of `build_index`: empty layer ids are a
hard failure. -/
def collect_layer_ids (layers : List PolicyLayer) : Except String (List String) :=
layers.foldlM
  (fun acc layer =>
    if strTrim layer.id = "" then Except.error "policy_layers must not contain empty ids"
    else Except.ok (acc ++ [layer.id]))
  []

/-- `build_index`. -/
def build_index (c : CapabilityCatalog) : Except String (List (String × Capability)) := do
if c.capabilities = [] then
  Except.error "catalog contains no capabilities"
else do
  let layer_ids ← collect_layer_ids c.scope.policy_layers
  let category_ids := c.scope.categories.map Prod.fst
  if category_ids = [] then
    Except.error "catalog scope must define at least one category"
  else
    c.capabilities.foldlM (build_index_step category_ids layer_ids (c.docs.map Prod.fst)) []

structure CapabilityIndex where
catalog_key : String
catalog : CapabilityCatalog
by_id : List (String × Capability)
deriving DecidableEq, Repr

/-- `CapabilityIndex::load` on an already-parsed catalog document (the disk
read and JSON deserialization are outside the core): validate the schema
version against the allowed set, validate the catalog metadata, and build
the id index.  Any violation aborts the load; no partial index is
returned. -/
def CapabilityIndex.load (envRaw : Option String) (c : CapabilityCatalog) :
    Except String CapabilityIndex := do
let _ ← validate_schema_version envRaw c.schema_version
let _ ← validate_catalog_metadata c.catalog
let by_id ← build_index c
Except.ok { catalog_key := c.catalog.key, catalog := c, by_id := by_id }

/-- Replace a catalog's schema version, leaving the rest of the document
unchanged (used to state what an "otherwise valid" catalog is). -/
def withVersion (c : CapabilityCatalog) (v : String) : CapabilityCatalog :=
{ c with schema_version := v }

/-- The referential-integrity property of the specification: every
capability's category, layer and doc references resolve within the same
document. -/
def RefsOk (c : CapabilityCatalog) : Prop :=
∀ cap ∈ c.capabilities,
  cap.category ∈ c.scope.categories.map Prod.fst ∧
  cap.layer ∈ (c.scope.policy_layers.map PolicyLayer.id) ∧
  ∀ source ∈ cap.sources, source.doc ∈ c.docs.map Prod.fst

/-- The id discipline of the specification: no capability id is empty (after
trimming) and no id is duplicated. -/
def IdsOk (c : CapabilityCatalog) : Prop :=
(∀ cap ∈ c.capabilities, strTrim cap.id ≠ "") ∧ (c.capabilities.map Capability.id).Nodup

/-- Validity of the parts of a catalog document other than its capability
list: accepted schema version, valid metadata, non-empty layer ids and a
non-empty category map (all fixed by the data-model section). -/
def ValidDocExceptCaps (envRaw : Option String) (c : CapabilityCatalog) : Prop :=
(validate_schema_version envRaw c.schema_version = Except.ok ()) ∧
(validate_catalog_metadata c.catalog = Except.ok ()) ∧
(∀ layer ∈ c.scope.policy_layers, strTrim layer.id ≠ "") ∧
c.scope.categories ≠ []

/-- A concrete fully valid one-capability catalog document. -/
def sampleCatalog : CapabilityCatalog :=
  { schema_version := "sandbox_catalog_v1",
    catalog := { key := "macos_codex_v1", title := "Sample catalog", labels := ["sandbox"] },
    scope := { policy_layers := [{ id := "seatbelt" }],
               categories := [("fs", "filesystem operations")] },
    docs := [("ref", "docs/ref.md")],
    capabilities := [{ id := "cap_fs_read_workspace_tree", category := "fs",
                       layer := "seatbelt", description := "read the workspace tree",
                       sources := [{ doc := "ref" }] }] }

/-- The sample catalog with an empty capability list. -/
def sampleCatalogNoCaps : CapabilityCatalog :=
  { sampleCatalog with capabilities := [] }

/-! ## Matrix orchestrators (src/bin/probe_matrix.rs and src/bin/fence_bang.rs) -/

/-- A probe: derived id plus containment-verified path. -/
structure Probe where
id : String
path : String
deriving DecidableEq, Repr

/-- Captured output of a child process.  `exitCode` already folds in the
`code().unwrap_or(-1)` convention for signal deaths; `0` means success. -/
structure ChildOutput where
exitCode : Int
stdout : String
stderr : String
deriving DecidableEq, Repr

/-- Substring test on strings, by list infix on the character lists. -/
def strContainsSub (hay needle : String) : Bool :=
decide (needle.toList <:+: hay.toList)

/-- Outcome of one (mode, probe) pair as the orchestrator loop sees it. -/
inductive PairResult where
| printed : (line : String) → PairResult
| skipped : (note : String) → PairResult
| failed : (err : String) → PairResult
deriving DecidableEq, Repr

/-- Modelled from the spec: `codex_fence::connectors::RunMode::is_codex`
(the codex_fence variant of the connector registry is not in the snapshot;
only its caller `fence_bang.rs` is).  The specification's data model
describes both codex-* modes as wrapped by the external sandboxing CLI, so
`is_codex` holds exactly for the two codex-* modes. -/
def RunMode.is_codex (m : RunMode) : Bool :=
m ≠ RunMode.Baseline

namespace ProbeMatrix

/-- `probe_matrix::run_probe`: non-zero exit is always an error; on zero
exit the stdout must parse as one JSON object, reprinted compactly.  The
JSON parser (serde) is abstracted as `parse`, returning the compact
rendering on success. -/
def run_probe (parse : String → Option String) (probe : Probe) (mode : RunMode)
    (out : ChildOutput) : Except String String :=
if out.exitCode ≠ 0 then
  Except.error ("Probe " ++ probe.id ++ " in mode " ++ mode.as_str ++
    " returned non-zero exit code " ++ toString out.exitCode)
else
  match parse out.stdout with
  | none => Except.error ("Failed to parse boundary object for probe " ++ probe.id ++
      " in mode " ++ mode.as_str)
  | some compact => Except.ok compact

/-- `probe_matrix::run_probe` as a pair outcome: it never skips. -/
def pairStep (parse : String → Option String) (exec : RunMode → Probe → ChildOutput)
    (mode : RunMode) (probe : Probe) : PairResult :=
match run_probe parse probe mode (exec mode probe) with
| Except.ok line => PairResult.printed line
| Except.error err => PairResult.failed err

end ProbeMatrix

namespace FenceBang

/-- `fence_bang::run_probe`: same contract as the probe-matrix variant,
except that a non-zero exit in a codex mode whose exit code is 71 or whose
stderr mentions `sandbox_apply` is a graceful skip. -/
def run_probe (parse : String → Option String) (probe : Probe) (mode : RunMode)
    (out : ChildOutput) : PairResult :=
if out.exitCode ≠ 0 then
  if mode.is_codex && ((out.exitCode == 71) || strContainsSub out.stderr "sandbox_apply") then
    PairResult.skipped ("skipping mode " ++ mode.as_str ++ " for probe " ++ probe.id ++
      ": codex sandbox unavailable")
  else
    PairResult.failed ("Probe " ++ probe.id ++ " in mode " ++ mode.as_str ++
      " returned non-zero exit code " ++ toString out.exitCode)
else
  match parse out.stdout with
  | none => PairResult.failed ("Failed to parse boundary object for probe " ++ probe.id ++
      " in mode " ++ mode.as_str)
  | some compact => PairResult.printed compact

/-- `fence_bang::run_probe` over a child-output oracle. -/
def pairStep (parse : String → Option String) (exec : RunMode → Probe → ChildOutput)
    (mode : RunMode) (probe : Probe) : PairResult :=
run_probe parse probe mode (exec mode probe)

end FenceBang

/-- The fixed nested iteration order of both orchestrators: outer loop over
modes, inner loop over probes. -/
def matrixPairs (modes : List RunMode) (probes : List Probe) : List (RunMode × Probe) :=
modes.flatMap (fun m => probes.map (fun p => (m, p)))

/-- Streamed stdout lines, diagnostic lines, and recorded per-pair failure
messages of a matrix run. -/
structure MatrixState where
printed : List String
diagnostics : List String
errors : List String
deriving DecidableEq, Repr

/-- The per-pair failure message recorded by the orchestrator loop
(`probe {id} in mode {mode} failed: {err}`). -/
def failMsg (probe : Probe) (mode : RunMode) (err : String) : String :=
"probe " ++ probe.id ++ " in mode " ++ mode.as_str ++ " failed: " ++ err

/-- One iteration of the orchestrator loop: print a produced record, log a
skip to diagnostics, or log and record a failure — then continue. -/
def matrixStep (step : RunMode → Probe → PairResult) (st : MatrixState)
    (mp : RunMode × Probe) : MatrixState :=
match step mp.1 mp.2 with
| PairResult.printed line => { st with printed := st.printed ++ [line] }
| PairResult.skipped note => { st with diagnostics := st.diagnostics ++ [note] }
| PairResult.failed err =>
  let message := failMsg mp.2 mp.1 err
  { st with diagnostics := st.diagnostics ++ [message],
            errors := st.errors ++ [message] }

/-- The orchestrator `run` loop over every (mode, probe) pair. -/
def runMatrix (step : RunMode → Probe → PairResult) (modes : List RunMode)
    (probes : List Probe) : MatrixState :=
(matrixPairs modes probes).foldl (matrixStep step) { printed := [], diagnostics := [], errors := [] }

/-- The end-of-run summary: success iff no pair failure was recorded. -/
def matrixResult (st : MatrixState) : Except String (List String) :=
if st.errors = [] then Except.ok st.printed
else Except.error (toString st.errors.length ++ " probe(s) failed; see stderr for details:\n" ++
  String.intercalate "\n" st.errors)

/-! ## External preflight (src/bin/probe_exec.rs) -/

/-- The probe metadata fields `emit_preflight_record` forwards. -/
structure ResolvedProbeMetadata where
id : String
version : String
primary_capability : String
deriving DecidableEq, Repr

/-- The flag set passed to the emit-record collaborator for a synthetic
preflight boundary object. -/
structure PreflightRecordArgs where
run_mode : String
probe_id : String
probe_version : String
primary_capability_id : String
command : String
category : String
verb : String
target : String
status : String
errno : Option String
message : String
raw_exit_code : Int
deriving DecidableEq, Repr

/-- The `(status, errno, message)` classification of captured stderr
(`classify_preflight_error`, whose source is outside the snapshot) is kept
abstract and threaded as a function. -/
abbrev ClassifyFn := String → String × Option String × String

/-- `emit_preflight_record`: classify the stderr and build the synthetic
boundary object describing the preflight operation itself — category
`preflight`, verb `mktemp`, target the attempted path. -/
def emit_preflight_record (classify : ClassifyFn) (metadata : ResolvedProbeMetadata)
    (run_mode : String) (target : String) (exit_code : Int) (stderr : String)
    (command_str : String) : PreflightRecordArgs :=
let triple := classify stderr
{ run_mode := run_mode, probe_id := metadata.id, probe_version := metadata.version,
  primary_capability_id := metadata.primary_capability, command := command_str,
  category := "preflight", verb := "mktemp", target := target,
  status := triple.1, errno := triple.2.1, message := triple.2.2,
  raw_exit_code := exit_code }

/-- Observable effect of the preflight step. -/
structure PreflightEffect where
emitted : Option PreflightRecordArgs
removedScratch : Option String
skipProbe : Bool
deriving DecidableEq, Repr

/-- `run_external_preflight`: attempt a trial `mkdir` of a unique scratch
directory inside the workspace tmpdir through the same sandbox wrapper.
Success removes the scratch directory and lets the probe run; failure
emits the synthetic preflight record instead of running the probe.  The
subprocess spawn is abstracted as the `spawn` oracle and the unique name
suffix as `suffix`. -/
def run_external_preflight (classify : ClassifyFn) (spawn : String → List String → ChildOutput)
    (env : HostEnv) (run_mode : RunMode) (platform_target : String)
    (workspace_tmpdir : String) (metadata : ResolvedProbeMetadata) (suffix : Nat) :
    PreflightEffect :=
let target := workspace_tmpdir ++ "/probe-preflight-" ++ toString suffix
match run_mode with
| RunMode.CodexSandbox =>
  let args := ["sandbox", platform_target, "--full-auto", "--", "/bin/mkdir", target]
  let cli := env.externalCliCommand
  let command_str := cli ++ " " ++ String.intercalate " " args
  let output := spawn cli args
  if output.exitCode == 0 then
    { emitted := none, removedScratch := some target, skipProbe := false }
  else
    { emitted := some (emit_preflight_record classify metadata run_mode.as_str target
        output.exitCode output.stderr command_str),
      removedScratch := none, skipProbe := true }
| _ => { emitted := none, removedScratch := none, skipProbe := false }

/-- `workspace_tmpdir_plan` result: either a usable tmpdir path or the last
`(attempted, message)` failure. -/
structure TmpdirPlan where
path : Option String
last_error : Option (String × String)
deriving DecidableEq, Repr

/-- Observable effect of the preflight portion of `probe_exec::run`:
whether a synthetic preflight record was emitted, whether a scratch
directory was removed, and whether the probe itself is run. -/
structure ProbeExecEffect where
record : Option PreflightRecordArgs
removedScratch : Option String
ranProbe : Bool
deriving DecidableEq, Repr

/-- The preflight decision logic of `probe_exec::run`: external modes with a
usable tmpdir run the preflight plan first and skip the probe when it
emits a denial; external modes with no usable tmpdir emit the synthetic
record for the failed `mkdir -p` of the tmpdir itself; everything else
runs the probe directly. -/
def probe_exec_flow (classify : ClassifyFn) (spawn : String → List String → ChildOutput)
    (env : HostEnv) (plan : ModePlan) (tmp : TmpdirPlan)
    (metadata : ResolvedProbeMetadata) (suffix : Nat) : ProbeExecEffect :=
if plan.run_mode.is_external then
  match tmp.path with
  | some tmpdir =>
    match plan.preflight with
    | some (PreflightPlan.ExternalTmp platform_target) =>
      let eff := run_external_preflight classify spawn env plan.run_mode platform_target
        tmpdir metadata suffix
      { record := eff.emitted, removedScratch := eff.removedScratch,
        ranProbe := !eff.skipProbe }
    | none => { record := none, removedScratch := none, ranProbe := true }
  | none =>
    match tmp.last_error with
    | some (attempted, message) =>
      { record := some (emit_preflight_record classify metadata plan.run_mode.as_str
          attempted 1 message ("mkdir -p " ++ attempted)),
        removedScratch := none, ranProbe := false }
    | none => { record := none, removedScratch := none, ranProbe := true }
else { record := none, removedScratch := none, ranProbe := true }

/-! ## Secondary capability id normalization (src/bin/emit_record.rs) -/

/-- Lexicographic comparison of character lists (an executable mirror of the
list order underlying the `String` order). -/
def charListLt : List Char → List Char → Bool
| _, [] => false
| [], _ :: _ => true
| c :: cs, d :: ds => if c < d then true else if d < c then false else charListLt cs ds

/-- Executable strict order on strings, agreeing with `<`. -/
def strLt (a b : String) : Bool :=
charListLt a.toList b.toList

/-- Ordered set insertion, mirroring `BTreeSet<String>::insert` followed by
sorted iteration: keeps the list strictly sorted and duplicate-free. -/
def insertSorted (x : String) : List String → List String
| [] => [x]
| y :: ys =>
  if x = y then y :: ys
  else if strLt x y then x :: y :: ys
  else y :: insertSorted x ys

/-- One entry of `normalize_secondary_ids`: trim, drop empties, require the
id to resolve in the capability map, and insert into the ordered set. -/
def normalize_step (caps : List String) (acc : List String) (value : String) :
    Except String (List String) :=
let trimmed := strTrim value
if trimmed = "" then Except.ok acc
else if caps.contains trimmed then Except.ok (insertSorted trimmed acc)
else Except.error ("Unknown secondary capability id: " ++ trimmed ++
  ". Expected one of the IDs in schema/capabilities.json.")

/-- `normalize_secondary_ids`: the capability map is abstracted to its key
list `caps`. -/
def normalize_secondary_ids (caps : List String) (raw : List String) :
    Except String (List String) :=
raw.foldlM (normalize_step caps) []

/-! ## Probe resolution (src/tests/probe_execution.rs guard rails)

The resolver itself (`fencerunner::resolve_probe`) is not part of the
snapshot — only its tests and callers are — so it is modelled from the
specification.  Paths are lists of components; the filesystem is a pair of
a canonicalization map (full symlink resolution, `none` for a broken or
missing path) and the file kind found at a canonical path. -/

inductive FileKind where
| regular : (executable : Bool) → FileKind
| directory : FileKind
| missing : FileKind
deriving DecidableEq, Repr

/-- An abstract filesystem, as seen by the resolver: `canonicalize` resolves
every symlink (returning `none` when the path cannot be resolved) and
`kind` reports what sits at a canonical path. -/
structure Fs where
canonicalize : List String → Option (List String)
kind : List String → FileKind

/-- `p` lies strictly inside the directory `dir`. -/
def strictlyWithin (dir p : List String) : Bool :=
dir.isPrefixOf p && decide (dir.length < p.length)

/-- A probe identifier: a bare name (with or without extension) or an
absolute path. -/
inductive ProbeRef where
| name : (s : String) → ProbeRef
| absolute : (p : List String) → ProbeRef
deriving DecidableEq, Repr

/-- Modelled from the spec: the candidate paths a probe identifier can
denote — the identifier under the probes directory, the identifier with
the `.sh` extension appended, or the absolute path itself. -/
def probeCandidates (probesDir : List String) : ProbeRef → List (List String)
| ProbeRef.absolute p => [p]
| ProbeRef.name s => [probesDir ++ [s], probesDir ++ [s ++ ".sh"]]

/-- Modelled from the spec: check one candidate — canonicalize, require the
canonical path to lie strictly inside the canonical probes directory, and
require a regular executable file there; the canonicalized path is
returned. -/
def checkCandidate (fs : Fs) (canonProbes : List String) (cand : List String) :
    Option (List String) :=
match fs.canonicalize cand with
| none => none
| some real =>
  if strictlyWithin canonProbes real then
    match fs.kind real with
    | FileKind.regular true => some real
    | _ => none
  else none

/-- Modelled from the spec: `fencerunner::resolve_probe` — resolve a probe
identifier to a containment-checked executable path, trying each candidate
in order. -/
def resolve_probe (fs : Fs) (canonProbes : List String) (ref : ProbeRef) :
    Option (List String) :=
(probeCandidates canonProbes ref).foldl
  (fun acc cand => acc.orElse (fun _ => checkCandidate fs canonProbes cand)) none

/-- A concrete filesystem for resolver scenarios: a good probe script, a
symlink inside the probes directory escaping to `/tmp`, and an outside
script. -/
def witnessFs : Fs :=
  { canonicalize := fun p =>
      if p = ["repo", "probes", "example.sh"] then some ["repo", "probes", "example.sh"]
      else if p = ["repo", "probes", "evil.sh"] then some ["tmp", "outside.sh"]
      else if p = ["tmp", "outside.sh"] then some ["tmp", "outside.sh"]
      else none,
    kind := fun p =>
      if p = ["repo", "probes", "example.sh"] then FileKind.regular true
      else if p = ["tmp", "outside.sh"] then FileKind.regular true
      else FileKind.missing }

/-- The record line a pair contributes to stdout, if any. -/
def printedOf (step : RunMode → Probe → PairResult) (mp : RunMode × Probe) : Option String :=
  match step mp.1 mp.2 with
  | PairResult.printed line => some line
  | _ => none

/-- The failure message a pair contributes to the error summary, if any. -/
def errorOf (step : RunMode → Probe → PairResult) (mp : RunMode × Probe) : Option String :=
  match step mp.1 mp.2 with
  | PairResult.failed err => some (failMsg mp.2 mp.1 err)
  | _ => none

/-- The line a pair contributes to the diagnostic stream, if any. -/
def diagOf (step : RunMode → Probe → PairResult) (mp : RunMode × Probe) : Option String :=
  match step mp.1 mp.2 with
  | PairResult.skipped note => some note
  | PairResult.failed err => some (failMsg mp.2 mp.1 err)
  | PairResult.printed _ => none

/-- The probe used in concrete orchestrator scenarios. -/
def probeReadTmp : Probe := { id := "read_tmp", path := "/repo/probes/read_tmp.sh" }

/-- A child outcome signalling that the external sandbox could not apply its
policy: exit code 71 with a `sandbox_apply` stderr signature. -/
def sandboxBlockedChild : ChildOutput :=
  { exitCode := 71, stdout := "", stderr := "sandbox_apply failed" }

/-- Host environment with the external CLI discoverable on PATH. -/
def envWithCli : HostEnv :=
  { externalCliPresent := true, externalCliCommand := "codex", otherEnv := [] }

/-- Host environment where the external CLI is missing from PATH. -/
def envWithoutCli : HostEnv :=
  { externalCliPresent := false, externalCliCommand := "codex", otherEnv := [] }

/-- Concrete stderr classifier for witness scenarios. -/
def classifyDenied : ClassifyFn := fun s => ("denied", some "EPERM", s)

/-- Spawn oracle whose sandboxed trial mkdir always fails. -/
def spawnFail : String → List String → ChildOutput :=
  fun _ _ => { exitCode := 1, stdout := "", stderr := "permission denied" }

/-- A concrete codex-sandbox mode plan. -/
def samplePlan : ModePlan :=
  { run_mode := RunMode.CodexSandbox, connector := ConnectorKind.ExternalCli,
    sandbox_env := "workspace-write",
    command := { program := "codex",
                 args := ["sandbox", "linux", "--full-auto", "--", "/repo/probes/read_tmp.sh"] },
    preflight := some (PreflightPlan.ExternalTmp "linux") }

/-- Concrete probe metadata for witness scenarios. -/
def sampleMeta : ResolvedProbeMetadata :=
  { id := "read_tmp", version := "1", primary_capability := "cap_fs_read_workspace_tree" }

/-- Host environment with the external CLI present and an unrelated
environment entry, to exhibit independence from other ambient state. -/
def envWithCliAndHome : HostEnv :=
  { externalCliPresent := true, externalCliCommand := "codex",
    otherEnv := [("HOME", "/root")] }

end CodexFence

namespace CodexFence

/-! ## Theorems -/

theorem checkCandidate_props (fs : Fs) (cp cand r : List String)
    (h : checkCandidate fs cp cand = some r) :
    fs.canonicalize cand = some r ∧ strictlyWithin cp r = true ∧
      fs.kind r = FileKind.regular true := by
  unfold checkCandidate at h
  cases hc : fs.canonicalize cand with
  | none =>
    rw [hc] at h
    cases h
  | some real =>
    rw [hc] at h
    dsimp only at h
    by_cases hw : strictlyWithin cp real
    · rw [if_pos hw] at h
      cases hk : fs.kind real with
      | regular ex =>
        cases ex with
        | false =>
          rw [hk] at h
          cases h
        | true =>
          rw [hk] at h
          cases h
          exact ⟨rfl, hw, hk⟩
      | directory =>
        rw [hk] at h
        cases h
      | missing =>
        rw [hk] at h
        cases h
    · rw [if_neg hw] at h
      cases h

theorem checkCandidate_some_of (fs : Fs) (cp cand r : List String)
    (hc : fs.canonicalize cand = some r) (hw : strictlyWithin cp r = true)
    (hk : fs.kind r = FileKind.regular true) :
    checkCandidate fs cp cand = some r := by
  unfold checkCandidate
  rw [hc]
  dsimp only
  rw [if_pos hw, hk]

/-- Claim C1: probe resolution is a containment guard — every identifier all
of whose candidate paths canonicalize outside the canonical probes
directory fails to resolve (so the probe is never executed); a successful
resolution always returns a canonicalized path strictly inside the probes
directory that holds a regular executable file; and an identifier whose
candidate canonicalizes strictly inside onto a regular executable file
resolves to that canonical path. -/
theorem resolve_probe_guards (fs : Fs) (canonProbes : List String) (ref : ProbeRef) :
    ((∀ cand ∈ probeCandidates canonProbes ref, ∀ real,
        fs.canonicalize cand = some real → strictlyWithin canonProbes real = false) →
      resolve_probe fs canonProbes ref = none) ∧
    (∀ r, resolve_probe fs canonProbes ref = some r →
      strictlyWithin canonProbes r = true ∧ fs.kind r = FileKind.regular true ∧
      ∃ cand ∈ probeCandidates canonProbes ref, fs.canonicalize cand = some r) ∧
    (∀ cand rest r, probeCandidates canonProbes ref = cand :: rest →
      fs.canonicalize cand = some r → strictlyWithin canonProbes r = true →
      fs.kind r = FileKind.regular true → resolve_probe fs canonProbes ref = some r) ∧
    (∀ c₁ c₂ r, probeCandidates canonProbes ref = [c₁, c₂] →
      checkCandidate fs canonProbes c₁ = none →
      fs.canonicalize c₂ = some r → strictlyWithin canonProbes r = true →
      fs.kind r = FileKind.regular true → resolve_probe fs canonProbes ref = some r) := by
  cases ref with
  | absolute p =>
    have hres : resolve_probe fs canonProbes (ProbeRef.absolute p)
        = checkCandidate fs canonProbes p := rfl
    refine ⟨?_, ?_, ?_, ?_⟩
    · intro houtside
      rw [hres]
      cases hchk : checkCandidate fs canonProbes p with
      | none => rfl
      | some r =>
        rcases checkCandidate_props fs canonProbes p r hchk with ⟨hc, hw, -⟩
        have := houtside p (by simp [probeCandidates]) r hc
        rw [hw] at this
        cases this
    · intro r hr
      rw [hres] at hr
      rcases checkCandidate_props fs canonProbes p r hr with ⟨hc, hw, hk⟩
      exact ⟨hw, hk, p, by simp [probeCandidates], hc⟩
    · intro cand rest r hlist hc hw hk
      have hcp : cand = p := by
        simp [probeCandidates] at hlist
        exact hlist.1.symm
      subst hcp
      rw [hres]
      exact checkCandidate_some_of fs canonProbes cand r hc hw hk
    · intro c₁ c₂ r hlist
      exfalso
      simp [probeCandidates] at hlist
  | name s =>
    have hres : resolve_probe fs canonProbes (ProbeRef.name s)
        = (checkCandidate fs canonProbes (canonProbes ++ [s])).orElse
            (fun _ => checkCandidate fs canonProbes (canonProbes ++ [s ++ ".sh"])) := rfl
    refine ⟨?_, ?_, ?_, ?_⟩
    · intro houtside
      rw [hres]
      cases hchk₁ : checkCandidate fs canonProbes (canonProbes ++ [s]) with
      | some r =>
        rcases checkCandidate_props fs canonProbes _ r hchk₁ with ⟨hc, hw, -⟩
        have := houtside (canonProbes ++ [s]) (by simp [probeCandidates]) r hc
        rw [hw] at this
        cases this
      | none =>
        cases hchk₂ : checkCandidate fs canonProbes (canonProbes ++ [s ++ ".sh"]) with
        | some r =>
          rcases checkCandidate_props fs canonProbes _ r hchk₂ with ⟨hc, hw, -⟩
          have := houtside (canonProbes ++ [s ++ ".sh"]) (by simp [probeCandidates]) r hc
          rw [hw] at this
          cases this
        | none =>
          rfl
    · intro r hr
      rw [hres] at hr
      cases hchk₁ : checkCandidate fs canonProbes (canonProbes ++ [s]) with
      | some r' =>
        rw [hchk₁] at hr
        have : r' = r := by
          cases hr
          rfl
        subst this
        rcases checkCandidate_props fs canonProbes _ r' hchk₁ with ⟨hc, hw, hk⟩
        exact ⟨hw, hk, canonProbes ++ [s], by simp [probeCandidates], hc⟩
      | none =>
        rw [hchk₁] at hr
        have hr₂ : checkCandidate fs canonProbes (canonProbes ++ [s ++ ".sh"]) = some r := hr
        rcases checkCandidate_props fs canonProbes _ r hr₂ with ⟨hc, hw, hk⟩
        exact ⟨hw, hk, canonProbes ++ [s ++ ".sh"], by simp [probeCandidates], hc⟩
    · intro cand rest r hlist hc hw hk
      have hcp : cand = canonProbes ++ [s] := by
        simp [probeCandidates] at hlist
        exact hlist.1.symm
      subst hcp
      rw [hres, checkCandidate_some_of fs canonProbes _ r hc hw hk]
      rfl
    · intro c₁ c₂ r hlist hnone hc hw hk
      have hl := hlist
      simp [probeCandidates] at hl
      rcases hl with ⟨h₁, h₂⟩
      subst h₁
      subst h₂
      rw [hres, hnone]
      have : checkCandidate fs canonProbes (canonProbes ++ [s ++ ".sh"]) = some r :=
        checkCandidate_some_of fs canonProbes _ r hc hw hk
      rw [this]
      rfl

/-- Claim C1 witness: on a concrete filesystem, an absolute path outside the
probes tree and an in-tree symlink escaping to `/tmp` both fail to resolve,
while a real probe script resolves to its canonical path. -/
theorem resolve_probe_guards_witness :
    resolve_probe witnessFs ["repo", "probes"] (ProbeRef.absolute ["tmp", "outside.sh"])
      = none ∧
    resolve_probe witnessFs ["repo", "probes"] (ProbeRef.name "evil") = none ∧
    resolve_probe witnessFs ["repo", "probes"] (ProbeRef.name "example")
      = some ["repo", "probes", "example.sh"] := by
  refine ⟨?_, ?_, ?_⟩
  · apply (resolve_probe_guards witnessFs ["repo", "probes"]
      (ProbeRef.absolute ["tmp", "outside.sh"])).1
    intro cand hcand real hcanon
    simp only [probeCandidates, List.mem_singleton] at hcand
    subst hcand
    have h₂ : (some ["tmp", "outside.sh"] : Option (List String)) = some real := hcanon
    cases h₂
    decide
  · apply (resolve_probe_guards witnessFs ["repo", "probes"] (ProbeRef.name "evil")).1
    intro cand hcand real hcanon
    simp only [probeCandidates, List.mem_cons, List.mem_singleton,
      List.not_mem_nil, or_false] at hcand
    rcases hcand with rfl | rfl
    · have h₂ : (none : Option (List String)) = some real := hcanon
      cases h₂
    · have h₂ : (some ["tmp", "outside.sh"] : Option (List String)) = some real := hcanon
      cases h₂
      decide
  · exact (resolve_probe_guards witnessFs ["repo", "probes"]
      (ProbeRef.name "example")).2.2.2 (["repo", "probes"] ++ ["example"])
      (["repo", "probes"] ++ ["example.sh"]) ["repo", "probes", "example.sh"]
      rfl rfl rfl (by decide) rfl

/-- Claim C10: for every boundary object, `primary_capability_id` never
returns `none`: it returns the capability context's primary snapshot id
when a capability context is present, and otherwise falls back to the
probe's declared primary capability id. -/
theorem primary_capability_id_total (b : BoundaryObject) :
    b.primary_capability_id =
      some ((b.capability_context.map (fun ctx => ctx.primary.id)).getD
        b.probe.primary_capability_id) ∧
    b.primary_capability_id ≠ none := by
  cases h : b.capability_context <;>
    simp [BoundaryObject.primary_capability_id, h]

/-- Claim C3, counterexample: the claim says the full-access mode
(`codex-full`) maps to the wrapped external-CLI connector, but
`RunMode::connector` maps `CodexFull` to the direct `Ambient` connector. -/
theorem codex_full_connector_is_not_external :
    RunMode.CodexFull.connector ≠ ConnectorKind.ExternalCli := by
  decide

/-- Claim C3, amended: the run-mode to connector mapping is fixed and
total — every mode maps to exactly one connector; `Baseline` and
`CodexFull` map to the direct `Ambient` connector (their command is the
probe itself with no wrapper arguments), and only `CodexSandbox` maps to
the wrapped external-CLI connector (its command is the external CLI with the
fixed sandbox argument shape ending in the probe path). -/
theorem run_mode_connector_mapping :
    (∀ m : RunMode, ∃! c : ConnectorKind, m.connector = c) ∧
    RunMode.Baseline.connector = ConnectorKind.Ambient ∧
    RunMode.CodexFull.connector = ConnectorKind.Ambient ∧
    RunMode.CodexSandbox.connector = ConnectorKind.ExternalCli ∧
    (∀ env pt p, RunMode.Baseline.command_spec env pt p =
      Except.ok { program := p, args := [] }) ∧
    (∀ env pt p, RunMode.CodexFull.command_spec env pt p =
      Except.ok { program := p, args := [] }) ∧
    (∀ env t p, RunMode.CodexSandbox.command_spec env (some t) p =
      Except.ok { program := env.externalCliCommand,
                  args := ["sandbox", t, "--full-auto", "--", p] }) := by
  refine ⟨fun m => ⟨m.connector, rfl, fun c hc => hc.symm⟩, rfl, rfl, rfl, ?_, ?_, ?_⟩ <;>
    intro env pt p <;> rfl

theorem foldl_matrixStep_spec (step : RunMode → Probe → PairResult)
    (l : List (RunMode × Probe)) (st : MatrixState) :
    (l.foldl (matrixStep step) st).printed = st.printed ++ l.filterMap (printedOf step) ∧
    (l.foldl (matrixStep step) st).errors = st.errors ++ l.filterMap (errorOf step) ∧
    (l.foldl (matrixStep step) st).diagnostics =
      st.diagnostics ++ l.filterMap (diagOf step) := by
  induction l generalizing st with
  | nil => simp
  | cons mp l ih =>
    cases h : step mp.1 mp.2 with
    | printed line =>
      simp only [List.foldl_cons, matrixStep, h]
      rw [(ih _).1, (ih _).2.1, (ih _).2.2]
      simp [printedOf, errorOf, diagOf, h]
    | skipped note =>
      simp only [List.foldl_cons, matrixStep, h]
      rw [(ih _).1, (ih _).2.1, (ih _).2.2]
      simp [printedOf, errorOf, diagOf, h]
    | failed err =>
      simp only [List.foldl_cons, matrixStep, h]
      rw [(ih _).1, (ih _).2.1, (ih _).2.2]
      simp [printedOf, errorOf, diagOf, h]

theorem matrixResult_isOk (st : MatrixState) :
    (matrixResult st).isOk = true ↔ st.errors = [] := by
  unfold matrixResult
  by_cases h : st.errors = [] <;> simp [h, Except.isOk, Except.toBool]

/-- Claim C5: the matrix orchestrator visits every (mode, probe) pair in the
fixed mode-major order regardless of failures — stdout carries exactly the
records of the successful pairs in that order even when later pairs fail,
every failing pair (non-zero exit or malformed JSON) is recorded with its
probe id and mode while execution continues, and the run as a whole reports
failure if and only if at least one pair failed. -/
theorem matrix_run_aggregation (step : RunMode → Probe → PairResult)
    (modes : List RunMode) (probes : List Probe) :
    (runMatrix step modes probes).printed =
      (matrixPairs modes probes).filterMap (printedOf step) ∧
    (runMatrix step modes probes).errors =
      (matrixPairs modes probes).filterMap (errorOf step) ∧
    ((matrixResult (runMatrix step modes probes)).isOk = true ↔
      ∀ mp ∈ matrixPairs modes probes, ∀ e, step mp.1 mp.2 ≠ PairResult.failed e) ∧
    (∀ (parse : String → Option String) (exec : RunMode → Probe → ChildOutput) m p,
      ((exec m p).exitCode ≠ 0 ∨ parse (exec m p).stdout = none) →
      ∃ e, ProbeMatrix.pairStep parse exec m p = PairResult.failed e) := by
  rcases foldl_matrixStep_spec step (matrixPairs modes probes)
    { printed := [], diagnostics := [], errors := [] } with ⟨h₁, h₂, _⟩
  refine ⟨by simpa [runMatrix] using h₁, by simpa [runMatrix] using h₂, ?_, ?_⟩
  · have herr : (runMatrix step modes probes).errors =
        (matrixPairs modes probes).filterMap (errorOf step) := by
      simpa [runMatrix] using h₂
    rw [matrixResult_isOk, herr, List.filterMap_eq_nil_iff]
    constructor
    · intro hnone mp hmp e hfail
      have := hnone mp hmp
      simp [errorOf, hfail] at this
    · intro hnofail mp hmp
      cases hs : step mp.1 mp.2 with
      | printed line => simp [errorOf, hs]
      | skipped note => simp [errorOf, hs]
      | failed e => exact absurd hs (hnofail mp hmp e)
  · intro parse exec m p hbad
    unfold ProbeMatrix.pairStep ProbeMatrix.run_probe
    rcases hbad with hz | hparse
    · rw [if_pos hz]
      exact ⟨_, rfl⟩
    · by_cases hz : (exec m p).exitCode ≠ 0
      · rw [if_pos hz]
        exact ⟨_, rfl⟩
      · rw [if_neg hz, hparse]
        exact ⟨_, rfl⟩

/-- Claim C5 witness: at a concrete failing pair (exit code 2 under
baseline), the orchestrator records the failure and the run reports it. -/
theorem matrix_run_aggregation_witness :
    ∃ e, ProbeMatrix.pairStep (fun _ => none)
      (fun _ _ => { exitCode := 2, stdout := "", stderr := "" })
      RunMode.Baseline { id := "bad_probe", path := "/repo/probes/bad_probe.sh" } =
      PairResult.failed e :=
  (matrix_run_aggregation (fun _ _ => PairResult.printed "") [] []).2.2.2
    (fun _ => none) (fun _ _ => { exitCode := 2, stdout := "", stderr := "" })
    RunMode.Baseline { id := "bad_probe", path := "/repo/probes/bad_probe.sh" }
    (Or.inl (by decide))

/-- Claim C4, counterexample: in the probe-matrix orchestrator a
codex-sandbox pair whose executor exits with the sandbox-unusable signature
(exit code 71, `sandbox_apply` on stderr) is recorded as a per-pair failure
and makes the whole run fail — it is not skipped. -/
theorem probe_matrix_counts_sandbox_unusable_as_failure :
    (runMatrix (ProbeMatrix.pairStep (fun _ => none) (fun _ _ => sandboxBlockedChild))
      [RunMode.CodexSandbox] [probeReadTmp]).errors ≠ [] ∧
    (matrixResult (runMatrix (ProbeMatrix.pairStep (fun _ => none)
      (fun _ _ => sandboxBlockedChild)) [RunMode.CodexSandbox] [probeReadTmp])).isOk
      = false := by
  constructor
  · decide
  · rfl

/-- Claim C4, amended: only the fence-bang orchestrator implements the
sandbox-unusable skip — its per-pair runner turns a non-zero exit in a
codex mode with exit code 71 or a `sandbox_apply` stderr signature into a
skip (logged to diagnostics, never counted as a failure), and every other
non-zero exit into a recorded per-pair failure; the probe-matrix
orchestrator records every non-zero exit as a per-pair failure. -/
theorem fence_bang_sandbox_skip (parse : String → Option String) (probe : Probe)
    (mode : RunMode) (out : ChildOutput) :
    (out.exitCode ≠ 0 → mode.is_codex = true →
      (out.exitCode = 71 ∨ strContainsSub out.stderr "sandbox_apply" = true) →
      ∃ note, FenceBang.run_probe parse probe mode out = PairResult.skipped note) ∧
    (out.exitCode ≠ 0 →
      (mode.is_codex && ((out.exitCode == 71) || strContainsSub out.stderr "sandbox_apply"))
        = false →
      ∃ e, FenceBang.run_probe parse probe mode out = PairResult.failed e) ∧
    (out.exitCode ≠ 0 → ∃ e, ProbeMatrix.run_probe parse probe mode out = Except.error e) ∧
    (∀ (step : RunMode → Probe → PairResult) (st : MatrixState) note (mp : RunMode × Probe),
      step mp.1 mp.2 = PairResult.skipped note →
      matrixStep step st mp = { st with diagnostics := st.diagnostics ++ [note] }) := by
  refine ⟨?_, ?_, ?_, ?_⟩
  · intro hz hcodex hsig
    have hcond : (mode.is_codex &&
        ((out.exitCode == 71) || strContainsSub out.stderr "sandbox_apply")) = true := by
      rcases hsig with h71 | hsub
      · simp [hcodex, h71]
      · simp [hcodex, hsub]
    unfold FenceBang.run_probe
    rw [if_pos hz, if_pos hcond]
    exact ⟨_, rfl⟩
  · intro hz hcond
    unfold FenceBang.run_probe
    rw [if_pos hz, if_neg (by simp [hcond])]
    exact ⟨_, rfl⟩
  · intro hz
    unfold ProbeMatrix.run_probe
    rw [if_pos hz]
    exact ⟨_, rfl⟩
  · intro step st note mp h
    simp [matrixStep, h]

/-- Claim C4 witness: at the concrete sandbox-unusable outcome, fence-bang
skips the codex-sandbox pair while a plain exit code 3 under baseline is a
failure, and probe-matrix fails the pair either way. -/
theorem fence_bang_sandbox_skip_witness :
    (∃ note, FenceBang.run_probe (fun _ => none) probeReadTmp RunMode.CodexSandbox
      sandboxBlockedChild = PairResult.skipped note) ∧
    (∃ e, FenceBang.run_probe (fun _ => none) probeReadTmp RunMode.Baseline
      { exitCode := 3, stdout := "", stderr := "" } = PairResult.failed e) ∧
    (∃ e, ProbeMatrix.run_probe (fun _ => none) probeReadTmp RunMode.CodexSandbox
      sandboxBlockedChild = Except.error e) :=
  ⟨(fence_bang_sandbox_skip (fun _ => none) probeReadTmp RunMode.CodexSandbox
      sandboxBlockedChild).1 (by decide) (by decide) (Or.inl (by decide)),
   (fence_bang_sandbox_skip (fun _ => none) probeReadTmp RunMode.Baseline
      { exitCode := 3, stdout := "", stderr := "" }).2.1 (by decide) (by decide),
   (fence_bang_sandbox_skip (fun _ => none) probeReadTmp RunMode.CodexSandbox
      sandboxBlockedChild).2.2.1 (by decide)⟩

/-- Claim C6: for the external-sandbox mode the preflight check attempts a
trial directory creation through the same sandbox wrapper; on success the
scratch directory is removed, no preflight record is emitted and the probe
runs normally; on failure a synthetic boundary object with category
`preflight`, verb `mktemp` and target the attempted path (classified from
the captured stderr) is emitted and the probe is not run — in every case
the pair yields exactly one record source. -/
theorem preflight_exactly_one_record (classify : ClassifyFn)
    (spawn : String → List String → ChildOutput) (env : HostEnv) (plan : ModePlan)
    (tmpdir : String) (metadata : ResolvedProbeMetadata) (suffix : Nat) (pt : String)
    (hmode : plan.run_mode = RunMode.CodexSandbox)
    (hpf : plan.preflight = some (PreflightPlan.ExternalTmp pt)) :
    ((spawn env.externalCliCommand ["sandbox", pt, "--full-auto", "--", "/bin/mkdir",
        tmpdir ++ "/probe-preflight-" ++ toString suffix]).exitCode = 0 →
      probe_exec_flow classify spawn env plan { path := some tmpdir, last_error := none }
          metadata suffix =
        { record := none,
          removedScratch := some (tmpdir ++ "/probe-preflight-" ++ toString suffix),
          ranProbe := true }) ∧
    ((spawn env.externalCliCommand ["sandbox", pt, "--full-auto", "--", "/bin/mkdir",
        tmpdir ++ "/probe-preflight-" ++ toString suffix]).exitCode ≠ 0 →
      probe_exec_flow classify spawn env plan { path := some tmpdir, last_error := none }
          metadata suffix =
        { record := some (emit_preflight_record classify metadata "codex-sandbox"
            (tmpdir ++ "/probe-preflight-" ++ toString suffix)
            (spawn env.externalCliCommand ["sandbox", pt, "--full-auto", "--", "/bin/mkdir",
              tmpdir ++ "/probe-preflight-" ++ toString suffix]).exitCode
            (spawn env.externalCliCommand ["sandbox", pt, "--full-auto", "--", "/bin/mkdir",
              tmpdir ++ "/probe-preflight-" ++ toString suffix]).stderr
            (env.externalCliCommand ++ " " ++ String.intercalate " "
              ["sandbox", pt, "--full-auto", "--", "/bin/mkdir",
                tmpdir ++ "/probe-preflight-" ++ toString suffix])),
          removedScratch := none, ranProbe := false }) ∧
    (∀ r, (probe_exec_flow classify spawn env plan
        { path := some tmpdir, last_error := none } metadata suffix).record = some r →
      r.category = "preflight" ∧ r.verb = "mktemp" ∧
      r.target = tmpdir ++ "/probe-preflight-" ++ toString suffix ∧
      r.status = (classify (spawn env.externalCliCommand ["sandbox", pt, "--full-auto", "--",
        "/bin/mkdir", tmpdir ++ "/probe-preflight-" ++ toString suffix]).stderr).1) ∧
    ((probe_exec_flow classify spawn env plan { path := some tmpdir, last_error := none }
        metadata suffix).record.isSome =
      !(probe_exec_flow classify spawn env plan { path := some tmpdir, last_error := none }
        metadata suffix).ranProbe) := by
  obtain ⟨rm, conn, se, cmd, pf⟩ := plan
  simp only at hmode hpf
  subst hmode
  subst hpf
  by_cases hz : (spawn env.externalCliCommand ["sandbox", pt, "--full-auto", "--",
      "/bin/mkdir", tmpdir ++ "/probe-preflight-" ++ toString suffix]).exitCode = 0
  · refine ⟨fun _ => ?_, fun hne => absurd hz hne, ?_, ?_⟩
    · simp [probe_exec_flow, RunMode.is_external, RunMode.connector,
        run_external_preflight, hz]
    · intro r hr
      simp [probe_exec_flow, RunMode.is_external, RunMode.connector,
        run_external_preflight, hz] at hr
    · simp [probe_exec_flow, RunMode.is_external, RunMode.connector,
        run_external_preflight, hz]
  · have hzb : ((spawn env.externalCliCommand ["sandbox", pt, "--full-auto", "--",
        "/bin/mkdir", tmpdir ++ "/probe-preflight-" ++ toString suffix]).exitCode == 0)
        = false := by
      simpa using hz
    refine ⟨fun hzz => absurd hzz hz, fun _ => ?_, ?_, ?_⟩
    · simp [probe_exec_flow, RunMode.is_external, RunMode.connector,
        run_external_preflight, hzb, RunMode.as_str]
    · intro r hr
      simp [probe_exec_flow, RunMode.is_external, RunMode.connector,
        run_external_preflight, hzb] at hr
      subst hr
      simp [emit_preflight_record]
    · simp [probe_exec_flow, RunMode.is_external, RunMode.connector,
        run_external_preflight, hzb]

/-- Claim C6 witness: with a failing trial mkdir, the flow emits exactly the
synthetic preflight record and does not run the probe. -/
theorem preflight_exactly_one_record_witness :
    probe_exec_flow classifyDenied spawnFail envWithCli samplePlan
        { path := some "/repo/tmp", last_error := none } sampleMeta 42 =
      { record := some (emit_preflight_record classifyDenied sampleMeta "codex-sandbox"
          ("/repo/tmp" ++ "/probe-preflight-" ++ toString 42)
          (spawnFail envWithCli.externalCliCommand ["sandbox", "linux", "--full-auto", "--",
            "/bin/mkdir", "/repo/tmp" ++ "/probe-preflight-" ++ toString 42]).exitCode
          (spawnFail envWithCli.externalCliCommand ["sandbox", "linux", "--full-auto", "--",
            "/bin/mkdir", "/repo/tmp" ++ "/probe-preflight-" ++ toString 42]).stderr
          (envWithCli.externalCliCommand ++ " " ++ String.intercalate " "
            ["sandbox", "linux", "--full-auto", "--", "/bin/mkdir",
              "/repo/tmp" ++ "/probe-preflight-" ++ toString 42])),
        removedScratch := none, ranProbe := false } :=
  (preflight_exactly_one_record classifyDenied spawnFail envWithCli samplePlan
    "/repo/tmp" sampleMeta 42 "linux" rfl rfl).2.1 (by decide)

theorem except_isOk_iff_exists {ε α : Type} (e : Except ε α) :
    e.isOk = true ↔ ∃ a, e = Except.ok a := by
  cases e <;> simp [Except.isOk, Except.toBool]

theorem except_bind_ok {ε α β : Type} (a : α) (f : α → Except ε β) :
    ((Except.ok a : Except ε α) >>= f) = f a := rfl

theorem except_bind_error {ε α β : Type} (e : ε) (f : α → Except ε β) :
    ((Except.error e : Except ε α) >>= f) = Except.error e := rfl

theorem collect_layer_ids_aux (layers : List PolicyLayer) :
    ∀ acc : List String, (∀ l ∈ layers, strTrim l.id ≠ "") →
      List.foldlM
        (fun acc layer =>
          if strTrim layer.id = "" then
            (Except.error "policy_layers must not contain empty ids" : Except String (List String))
          else Except.ok (acc ++ [layer.id]))
        acc layers = Except.ok (acc ++ layers.map PolicyLayer.id) := by
  induction layers with
  | nil => intro acc _; simp; rfl
  | cons l ls ih =>
    intro acc h
    have hl : strTrim l.id ≠ "" := h l (List.mem_cons_self l ls)
    have hrest : ∀ x ∈ ls, strTrim x.id ≠ "" := fun x hx => h x (List.mem_cons_of_mem l hx)
    simp only [List.foldlM_cons, if_neg hl, except_bind_ok]
    rw [ih (acc ++ [l.id]) hrest]
    simp

theorem collect_layer_ids_ok (layers : List PolicyLayer)
    (h : ∀ l ∈ layers, strTrim l.id ≠ "") :
    collect_layer_ids layers = Except.ok (layers.map PolicyLayer.id) := by
  have := collect_layer_ids_aux layers [] h
  simpa [collect_layer_ids] using this

theorem build_index_step_ok_iff (catIds layerIds docKeys : List String)
    (acc out : List (String × Capability)) (cap : Capability) :
    build_index_step catIds layerIds docKeys acc cap = Except.ok out ↔
      (strTrim cap.id ≠ "" ∧ cap.id ∉ acc.map Prod.fst ∧ cap.category ∈ catIds ∧
        cap.layer ∈ layerIds ∧ (∀ s ∈ cap.sources, s.doc ∈ docKeys) ∧
        out = acc ++ [(cap.id, cap)]) := by
  unfold build_index_step
  by_cases h₁ : strTrim cap.id = ""
  · rw [if_pos h₁]
    simp [h₁]
  · rw [if_neg h₁]
    by_cases h₂ : cap.id ∈ acc.map Prod.fst
    · rw [if_pos (List.elem_iff.2 h₂)]
      simp [h₂]
    · rw [if_neg (fun hc => h₂ (List.elem_iff.1 hc))]
      by_cases h₃ : cap.category ∈ catIds
      · rw [if_neg (fun hc => hc (List.elem_iff.2 h₃))]
        by_cases h₄ : cap.layer ∈ layerIds
        · rw [if_neg (fun hc => hc (List.elem_iff.2 h₄))]
          by_cases h₅ : ∀ s ∈ cap.sources, s.doc ∈ docKeys
          · have hall : cap.sources.all (fun s => docKeys.contains s.doc) = true :=
              List.all_eq_true.2 (fun s hs => List.elem_iff.2 (h₅ s hs))
            rw [if_neg (fun hc => hc hall)]
            constructor
            · intro h
              exact ⟨h₁, h₂, h₃, h₄, h₅, (Except.ok.inj h).symm⟩
            · rintro ⟨-, -, -, -, -, rfl⟩
              rfl
          · have hall : ¬ (cap.sources.all (fun s => docKeys.contains s.doc) = true) := by
              intro hc
              exact h₅ (fun s hs => List.elem_iff.1 (List.all_eq_true.1 hc s hs))
            rw [if_pos hall]
            simp [h₅]
        · rw [if_pos (fun hc : layerIds.contains cap.layer = true =>
            h₄ (List.elem_iff.1 hc))]
          simp [h₄]
      · rw [if_pos (fun hc : catIds.contains cap.category = true =>
          h₃ (List.elem_iff.1 hc))]
        simp [h₃]

theorem build_fold_ok_iff (catIds layerIds docKeys : List String) :
    ∀ (caps : List Capability) (acc : List (String × Capability)),
      (List.foldlM (build_index_step catIds layerIds docKeys) acc caps).isOk = true ↔
      ((∀ cap ∈ caps, strTrim cap.id ≠ "" ∧ cap.category ∈ catIds ∧ cap.layer ∈ layerIds ∧
          ∀ s ∈ cap.sources, s.doc ∈ docKeys) ∧
        (caps.map Capability.id).Nodup ∧
        (∀ cap ∈ caps, cap.id ∉ acc.map Prod.fst)) := by
  intro caps
  induction caps with
  | nil =>
    intro acc
    simp [Except.isOk, Except.toBool, pure, Except.pure]
  | cons cap caps ih =>
    intro acc
    simp only [List.foldlM_cons]
    cases hstep : build_index_step catIds layerIds docKeys acc cap with
    | error e =>
      rw [except_bind_error]
      constructor
      · intro h
        exact absurd h (by simp [Except.isOk, Except.toBool])
      · rintro ⟨hconds, hnodup, hdisj⟩
        have hok : build_index_step catIds layerIds docKeys acc cap
            = Except.ok (acc ++ [(cap.id, cap)]) := by
          rcases hconds cap (List.mem_cons_self cap caps) with ⟨hc1, hc3, hc4, hc5⟩
          exact (build_index_step_ok_iff catIds layerIds docKeys acc _ cap).2
            ⟨hc1, hdisj cap (List.mem_cons_self cap caps), hc3, hc4, hc5, rfl⟩
        rw [hstep] at hok
        cases hok
    | ok acc' =>
      rw [except_bind_ok]
      rcases (build_index_step_ok_iff catIds layerIds docKeys acc acc' cap).1 hstep with
        ⟨hc1, hc2, hc3, hc4, hc5, rfl⟩
      rw [ih (acc ++ [(cap.id, cap)])]
      constructor
      · rintro ⟨hconds, hnodup, hdisj⟩
        refine ⟨?_, ?_, ?_⟩
        · intro c hc
          rcases List.mem_cons.1 hc with rfl | hc'
          · exact ⟨hc1, hc3, hc4, hc5⟩
          · exact hconds c hc'
        · rw [List.map_cons, List.nodup_cons]
          refine ⟨?_, hnodup⟩
          intro hmem
          rcases List.mem_map.1 hmem with ⟨c, hc, hcid⟩
          have hne := hdisj c hc
          rw [List.map_append] at hne
          exact hne (List.mem_append_right _ (by simp [hcid]))
        · intro c hc
          rcases List.mem_cons.1 hc with rfl | hc'
          · exact hc2
          · intro hmem
            have hne := hdisj c hc'
            rw [List.map_append] at hne
            exact hne (List.mem_append_left _ hmem)
      · rintro ⟨hconds, hnodup, hdisj⟩
        refine ⟨?_, ?_, ?_⟩
        · intro c hc
          exact hconds c (List.mem_cons_of_mem cap hc)
        · exact (List.nodup_cons.1 (by simpa using hnodup)).2
        · intro c hc
          simp only [List.map_append, List.map_cons, List.map_nil]
          intro hmem
          rcases List.mem_append.1 hmem with hmem' | hmem'
          · exact hdisj c (List.mem_cons_of_mem cap hc) hmem'
          · have hcid : c.id = cap.id := by simpa using hmem'
            have : cap.id ∉ caps.map Capability.id :=
              (List.nodup_cons.1 (by simpa using hnodup)).1
            exact this (hcid ▸ List.mem_map_of_mem Capability.id hc)

theorem build_index_isOk_iff (c : CapabilityCatalog)
    (hlayers : ∀ l ∈ c.scope.policy_layers, strTrim l.id ≠ "")
    (hcats : c.scope.categories ≠ []) :
    (build_index c).isOk = true ↔ (c.capabilities ≠ [] ∧ IdsOk c ∧ RefsOk c) := by
  unfold build_index
  by_cases hne : c.capabilities = []
  · rw [if_pos hne]
    simp [Except.isOk, Except.toBool, hne]
  · rw [if_neg hne]
    rw [collect_layer_ids_ok _ hlayers, except_bind_ok]
    have hcats' : ¬ c.scope.categories.map Prod.fst = [] := by simpa using hcats
    rw [if_neg hcats']
    rw [build_fold_ok_iff]
    unfold IdsOk RefsOk
    constructor
    · rintro ⟨hconds, hnodup, -⟩
      exact ⟨hne, ⟨fun cap hc => (hconds cap hc).1, hnodup⟩,
        fun cap hc => ⟨(hconds cap hc).2.1, (hconds cap hc).2.2.1, (hconds cap hc).2.2.2⟩⟩
    · rintro ⟨-, ⟨htrim, hnodup⟩, hrefs⟩
      refine ⟨fun cap hc => ⟨htrim cap hc, (hrefs cap hc).1, (hrefs cap hc).2.1,
        (hrefs cap hc).2.2⟩, hnodup, fun cap hc => ?_⟩
      simp

theorem validate_schema_version_ok_iff (envRaw : Option String) (v : String) :
    validate_schema_version envRaw v = Except.ok () ↔
      (v ≠ "" ∧ v.toList.all identChar = true ∧ v ∈ allowed_schema_versions envRaw) := by
  unfold validate_schema_version
  by_cases h₁ : v = ""
  · rw [if_pos h₁]
    simp [h₁]
  · rw [if_neg h₁]
    by_cases h₂ : v.toList.all identChar = true
    · rw [if_neg (fun hc => hc h₂)]
      by_cases h₃ : v ∈ allowed_schema_versions envRaw
      · rw [if_neg (fun hc => hc (List.elem_iff.2 h₃))]
        exact ⟨fun _ => ⟨h₁, h₂, h₃⟩, fun _ => rfl⟩
      · rw [if_pos (fun hc : (allowed_schema_versions envRaw).contains v = true =>
          h₃ (List.elem_iff.1 hc))]
        exact ⟨fun h => absurd h (by simp), fun hcon => absurd hcon.2.2 h₃⟩
    · rw [if_pos (fun hc : v.toList.all identChar = true => h₂ hc)]
      exact ⟨fun h => absurd h (by simp), fun hcon => absurd hcon.2.1 h₂⟩

theorem load_isOk_parts (envRaw : Option String) (c : CapabilityCatalog) :
    (CapabilityIndex.load envRaw c).isOk = true ↔
      (validate_schema_version envRaw c.schema_version = Except.ok () ∧
        validate_catalog_metadata c.catalog = Except.ok () ∧
        (build_index c).isOk = true) := by
  unfold CapabilityIndex.load
  cases hv : validate_schema_version envRaw c.schema_version with
  | error e =>
    rw [except_bind_error]
    simp [Except.isOk, Except.toBool]
  | ok u =>
    cases u
    rw [except_bind_ok]
    cases hm : validate_catalog_metadata c.catalog with
    | error e =>
      rw [except_bind_error]
      simp [Except.isOk, Except.toBool]
    | ok u' =>
      cases u'
      rw [except_bind_ok]
      cases hb : build_index c with
      | error e =>
        rw [except_bind_error]
        simp [Except.isOk, Except.toBool]
      | ok byId =>
        rw [except_bind_ok]
        simp [Except.isOk, Except.toBool]

/-- Claim C2, counterexample: a catalog document that is valid in every
respect and whose (empty) capability list vacuously satisfies the
referential-integrity and id conditions still fails to load, because
`build_index` rejects catalogs with no capabilities. -/
theorem load_rejects_empty_capability_list :
    ValidDocExceptCaps none sampleCatalogNoCaps ∧ IdsOk sampleCatalogNoCaps ∧
    RefsOk sampleCatalogNoCaps ∧
    (CapabilityIndex.load none sampleCatalogNoCaps).isOk = false := by
  refine ⟨⟨rfl, rfl, by decide, by decide⟩, ⟨by decide, by decide⟩, ?_, rfl⟩
  unfold RefsOk
  decide

/-- Claim C2, amended: for every catalog document whose non-capability parts
are valid, `CapabilityIndex::load` succeeds if and only if the catalog has
at least one capability, no capability id is empty or duplicated, and every
capability's category, layer and doc-key references resolve within the same
document; any violation aborts the load (no partial index is returned). -/
theorem capability_index_load_iff (envRaw : Option String) (c : CapabilityCatalog)
    (h : ValidDocExceptCaps envRaw c) :
    (CapabilityIndex.load envRaw c).isOk = true ↔
      (c.capabilities ≠ [] ∧ IdsOk c ∧ RefsOk c) := by
  rcases h with ⟨hs, hm, hl, hc⟩
  rw [load_isOk_parts, build_index_isOk_iff c hl hc]
  simp [hs, hm]

/-- Claim C2 witness: the sample catalog is valid and loads. -/
theorem capability_index_load_iff_witness :
    (CapabilityIndex.load none sampleCatalog).isOk = true :=
  (capability_index_load_iff none sampleCatalog ⟨rfl, rfl, by decide, by decide⟩).mpr
    ⟨by decide, ⟨by decide, by decide⟩, by unfold RefsOk; decide⟩

/-- Claim C7, counterexample: the claim says that for every otherwise-valid
catalog, adding its schema version to the override list makes the load
succeed — but the charset check runs before the allow-list check, so a
version containing a space fails the load even when the override list
contains exactly that version. -/
theorem override_cannot_save_malformed_version :
    (CapabilityIndex.load none sampleCatalog).isOk = true ∧
    ("v 1" ∈ allowed_schema_versions (some "v 1")) ∧
    (CapabilityIndex.load (some "v 1") (withVersion sampleCatalog "v 1")).isOk = false := by
  exact ⟨rfl, by decide, rfl⟩

/-- Claim C7, amended: every catalog whose schema version is outside the
allowed set fails to load; and for every otherwise-valid catalog whose
schema version is non-empty and within the identifier charset, putting that
version into the allowed set via the explicit override makes the load
succeed. -/
theorem schema_version_allowlist (envRaw : Option String) (c : CapabilityCatalog)
    (v : String) :
    (c.schema_version ∉ allowed_schema_versions envRaw →
      (CapabilityIndex.load envRaw c).isOk = false) ∧
    (v ≠ "" → v.toList.all identChar = true → v ∈ allowed_schema_versions envRaw →
      (CapabilityIndex.load none (withVersion c DEFAULT_SCHEMA_VERSION)).isOk = true →
      (CapabilityIndex.load envRaw (withVersion c v)).isOk = true) := by
  constructor
  · intro hnot
    cases hv : validate_schema_version envRaw c.schema_version with
    | ok u =>
      cases u
      exact absurd ((validate_schema_version_ok_iff envRaw c.schema_version).1 hv).2.2 hnot
    | error e =>
      unfold CapabilityIndex.load
      rw [hv, except_bind_error]
      rfl
  · intro hne hchars hmem hdef
    rw [load_isOk_parts] at hdef ⊢
    rcases hdef with ⟨-, hm, hb⟩
    exact ⟨(validate_schema_version_ok_iff envRaw v).2 ⟨hne, hchars, hmem⟩, hm, hb⟩

/-- Claim C7 witness: a catalog pinned to a custom version loads once that
version is supplied through the override environment value. -/
theorem schema_version_allowlist_witness :
    (CapabilityIndex.load (some "custom_v2")
      (withVersion sampleCatalog "custom_v2")).isOk = true :=
  (schema_version_allowlist (some "custom_v2") sampleCatalog "custom_v2").2
    (by decide) (by decide) (by decide) rfl

theorem charListLt_lt_iff : ∀ l₁ l₂ : List Char, charListLt l₁ l₂ = true ↔ l₁ < l₂ := by
  intro l₁
  induction l₁ with
  | nil =>
    intro l₂
    cases l₂ with
    | nil =>
      constructor
      · intro h
        exact absurd h (by simp [charListLt])
      · intro h
        exact absurd h (by intro hc; nomatch hc)
    | cons b bs =>
      constructor
      · intro _
        exact List.Lex.nil
      · intro _
        rfl
  | cons c cs ih =>
    intro l₂
    cases l₂ with
    | nil =>
      constructor
      · intro h
        exact absurd h (by simp [charListLt])
      · intro h
        exact absurd h (by intro hc; nomatch hc)
    | cons d ds =>
      simp only [charListLt]
      by_cases h₁ : c < d
      · rw [if_pos h₁]
        exact ⟨fun _ => List.Lex.rel h₁, fun _ => rfl⟩
      · rw [if_neg h₁]
        by_cases h₂ : d < c
        · rw [if_pos h₂]
          constructor
          · intro hcontra
            exact absurd hcontra (by simp)
          · intro h
            exfalso
            cases h with
            | cons htl => exact lt_irrefl _ h₂
            | rel hr => exact h₁ hr
        · rw [if_neg h₂]
          have hcd : c = d := by
            rcases lt_trichotomy c d with h₃ | h₃ | h₃
            · exact absurd h₃ h₁
            · exact h₃
            · exact absurd h₃ h₂
          subst hcd
          rw [ih ds]
          constructor
          · intro h
            exact List.Lex.cons h
          · intro h
            cases h with
            | cons htl => exact htl
            | rel hr => exact absurd hr h₁

theorem strLt_iff (a b : String) : strLt a b = true ↔ a < b := by
  unfold strLt
  rw [charListLt_lt_iff]
  exact String.lt_iff_toList_lt.symm

theorem mem_insertSorted (x a : String) :
    ∀ l : List String, a ∈ insertSorted x l ↔ a = x ∨ a ∈ l := by
  intro l
  induction l with
  | nil => simp [insertSorted]
  | cons y ys ih =>
    unfold insertSorted
    by_cases hxy : x = y
    · rw [if_pos hxy]
      subst hxy
      simp [List.mem_cons]
    · by_cases hlt : x < y
      · rw [if_neg hxy, if_pos ((strLt_iff x y).2 hlt)]
        simp [List.mem_cons]
      · rw [if_neg hxy, if_neg (fun hb => hlt ((strLt_iff x y).1 hb))]
        simp only [List.mem_cons, ih]
        tauto

theorem sorted_insertSorted (x : String) :
    ∀ l : List String, l.Sorted (· < ·) → (insertSorted x l).Sorted (· < ·) := by
  intro l
  induction l with
  | nil =>
    intro _
    simp [insertSorted]
  | cons y ys ih =>
    intro h
    rcases List.sorted_cons.1 h with ⟨hy, hys⟩
    unfold insertSorted
    by_cases hxy : x = y
    · rw [if_pos hxy]
      exact h
    · by_cases hlt : x < y
      · rw [if_neg hxy, if_pos ((strLt_iff x y).2 hlt)]
        refine List.sorted_cons.2 ⟨?_, h⟩
        intro z hz
        rcases List.mem_cons.1 hz with rfl | hz'
        · exact hlt
        · exact lt_trans hlt (hy z hz')
      · rw [if_neg hxy, if_neg (fun hb => hlt ((strLt_iff x y).1 hb))]
        have hyx : y < x := by
          rcases lt_trichotomy x y with h3 | h3 | h3
          · exact absurd h3 hlt
          · exact absurd h3 hxy
          · exact h3
        refine List.sorted_cons.2 ⟨?_, ih hys⟩
        intro z hz
        rcases (mem_insertSorted x z ys).1 hz with rfl | hz'
        · exact hyx
        · exact hy z hz'

theorem sorted_lt_eq_of_mem_iff :
    ∀ l₁ l₂ : List String, l₁.Sorted (· < ·) → l₂.Sorted (· < ·) →
      (∀ a, a ∈ l₁ ↔ a ∈ l₂) → l₁ = l₂ := by
  intro l₁
  induction l₁ with
  | nil =>
    intro l₂ _ _ hmem
    cases l₂ with
    | nil => rfl
    | cons b l₂ => exact absurd ((hmem b).2 (List.mem_cons_self b l₂)) (List.not_mem_nil b)
  | cons a l₁ ih =>
    intro l₂ h₁ h₂ hmem
    cases l₂ with
    | nil => exact absurd ((hmem a).1 (List.mem_cons_self a l₁)) (List.not_mem_nil a)
    | cons b l₂ =>
      rcases List.sorted_cons.1 h₁ with ⟨ha, hl₁⟩
      rcases List.sorted_cons.1 h₂ with ⟨hb, hl₂⟩
      have hab : a = b := by
        rcases List.mem_cons.1 ((hmem a).1 (List.mem_cons_self a l₁)) with h | h
        · exact h
        · have hba : b < a := hb a h
          rcases List.mem_cons.1 ((hmem b).2 (List.mem_cons_self b l₂)) with h' | h'
          · exact h'.symm
          · exact absurd (ha b h') (lt_asymm hba)
      subst hab
      congr 1
      apply ih l₂ hl₁ hl₂
      intro z
      constructor
      · intro hz
        rcases List.mem_cons.1 ((hmem z).1 (List.mem_cons_of_mem a hz)) with rfl | hz'
        · exact absurd (ha z hz) (lt_irrefl z)
        · exact hz'
      · intro hz
        rcases List.mem_cons.1 ((hmem z).2 (List.mem_cons_of_mem a hz)) with rfl | hz'
        · exact absurd (hb z hz) (lt_irrefl z)
        · exact hz'

theorem normalize_fold_spec (caps : List String) :
    ∀ (raw : List String) (acc : List String),
      ((List.foldlM (normalize_step caps) acc raw).isOk = true ↔
        ∀ v ∈ raw, strTrim v = "" ∨ strTrim v ∈ caps) ∧
      (∀ out, List.foldlM (normalize_step caps) acc raw = Except.ok out →
        ((∀ s, s ∈ out ↔ s ∈ acc ∨ ∃ v ∈ raw, strTrim v = s ∧ s ≠ "") ∧
          (acc.Sorted (· < ·) → out.Sorted (· < ·)))) := by
  intro raw
  induction raw with
  | nil =>
    intro acc
    constructor
    · simp [Except.isOk, Except.toBool, pure, Except.pure]
    · intro out hout
      have hae : acc = out := by simpa [pure, Except.pure] using hout
      subst hae
      exact ⟨fun s => by simp, fun h => h⟩
  | cons v raw ih =>
    intro acc
    simp only [List.foldlM_cons]
    by_cases hv : strTrim v = ""
    · have hstep : normalize_step caps acc v = Except.ok acc := by
        simp [normalize_step, hv]
      rw [hstep, except_bind_ok]
      constructor
      · rw [(ih acc).1]
        constructor
        · intro h w hw
          rcases List.mem_cons.1 hw with rfl | hw'
          · exact Or.inl hv
          · exact h w hw'
        · intro h w hw
          exact h w (List.mem_cons_of_mem v hw)
      · intro out hout
        rcases (ih acc).2 out hout with ⟨hmem, hsort⟩
        refine ⟨fun s => ?_, hsort⟩
        rw [hmem s]
        constructor
        · rintro (h | ⟨w, hw, hws, hne⟩)
          · exact Or.inl h
          · exact Or.inr ⟨w, List.mem_cons_of_mem v hw, hws, hne⟩
        · rintro (h | ⟨w, hw, hws, hne⟩)
          · exact Or.inl h
          · rcases List.mem_cons.1 hw with rfl | hw'
            · exact absurd (hws.symm.trans hv) hne
            · exact Or.inr ⟨w, hw', hws, hne⟩
    · by_cases hc : strTrim v ∈ caps
      · have hstep : normalize_step caps acc v
            = Except.ok (insertSorted (strTrim v) acc) := by
          simp [normalize_step, hv, hc]
        rw [hstep, except_bind_ok]
        constructor
        · rw [(ih (insertSorted (strTrim v) acc)).1]
          constructor
          · intro h w hw
            rcases List.mem_cons.1 hw with rfl | hw'
            · exact Or.inr hc
            · exact h w hw'
          · intro h w hw
            exact h w (List.mem_cons_of_mem v hw)
        · intro out hout
          rcases (ih (insertSorted (strTrim v) acc)).2 out hout with ⟨hmem, hsort⟩
          refine ⟨fun s => ?_, fun hacc => hsort (sorted_insertSorted _ acc hacc)⟩
          rw [hmem s, mem_insertSorted]
          constructor
          · rintro ((rfl | h) | ⟨w, hw, hws, hne⟩)
            · exact Or.inr ⟨v, List.mem_cons_self v raw, rfl, hv⟩
            · exact Or.inl h
            · exact Or.inr ⟨w, List.mem_cons_of_mem v hw, hws, hne⟩
          · rintro (h | ⟨w, hw, hws, hne⟩)
            · exact Or.inl (Or.inr h)
            · rcases List.mem_cons.1 hw with rfl | hw'
              · exact Or.inl (Or.inl hws.symm)
              · exact Or.inr ⟨w, hw', hws, hne⟩
      · have hstep : normalize_step caps acc v
            = Except.error ("Unknown secondary capability id: " ++ strTrim v ++
                ". Expected one of the IDs in schema/capabilities.json.") := by
          simp only [normalize_step]
          rw [if_neg hv, if_neg (fun hcc => hc (List.elem_iff.1 hcc))]
        rw [hstep, except_bind_error]
        constructor
        · constructor
          · intro h
            exact absurd h (by simp [Except.isOk, Except.toBool])
          · intro h
            rcases h v (List.mem_cons_self v raw) with h' | h'
            · exact absurd h' hv
            · exact absurd h' hc
        · intro out hout
          exact absurd hout (by simp)

/-- Claim C9: normalization of secondary capability ids trims each entry,
discards empties, collapses duplicates, fails exactly when some remaining
entry does not resolve in the capability map, and — on success — returns an
output that is invariant under permutation of the input list. -/
theorem normalize_secondary_ids_spec (caps raw : List String) :
    ((∃ e, normalize_secondary_ids caps raw = Except.error e) ↔
      ∃ v ∈ raw, strTrim v ≠ "" ∧ strTrim v ∉ caps) ∧
    (∀ out, normalize_secondary_ids caps raw = Except.ok out →
      ((∀ s, s ∈ out ↔ ∃ v ∈ raw, strTrim v = s ∧ s ≠ "") ∧
        out.Sorted (· < ·) ∧ out.Nodup)) ∧
    (∀ raw' out, raw.Perm raw' → normalize_secondary_ids caps raw = Except.ok out →
      normalize_secondary_ids caps raw' = Except.ok out) := by
  have base := normalize_fold_spec caps raw []
  refine ⟨?_, ?_, ?_⟩
  · constructor
    · rintro ⟨e, he⟩
      by_contra hno
      push_neg at hno
      have hok : (normalize_secondary_ids caps raw).isOk = true := by
        rw [show normalize_secondary_ids caps raw
            = List.foldlM (normalize_step caps) [] raw from rfl]
        rw [base.1]
        intro v hv
        by_cases h : strTrim v = ""
        · exact Or.inl h
        · exact Or.inr (hno v hv h)
      rw [he] at hok
      exact absurd hok (by simp [Except.isOk, Except.toBool])
    · rintro ⟨v, hv, hne, hnotin⟩
      cases hres : normalize_secondary_ids caps raw with
      | error e => exact ⟨e, rfl⟩
      | ok out =>
        have hok : (normalize_secondary_ids caps raw).isOk = true := by
          rw [hres]
          rfl
        rw [show normalize_secondary_ids caps raw
            = List.foldlM (normalize_step caps) [] raw from rfl] at hok
        rcases base.1.1 hok v hv with h | h
        · exact absurd h hne
        · exact absurd h hnotin
  · intro out hout
    rcases base.2 out hout with ⟨hmem, hsort⟩
    have hsorted : out.Sorted (· < ·) := hsort (by simp)
    refine ⟨fun s => ?_, hsorted, hsorted.nodup⟩
    rw [hmem s]
    simp
  · intro raw' out hperm hout
    have base' := normalize_fold_spec caps raw' []
    have hok : (List.foldlM (normalize_step caps) [] raw).isOk = true := by
      rw [show (List.foldlM (normalize_step caps) [] raw : Except String (List String))
          = normalize_secondary_ids caps raw from rfl, hout]
      rfl
    have hok' : (List.foldlM (normalize_step caps) [] raw').isOk = true := by
      rw [base'.1]
      intro v hv
      exact base.1.1 hok v (hperm.mem_iff.2 hv)
    rcases (except_isOk_iff_exists _).1 hok' with ⟨out', hout'⟩
    rcases base.2 out hout with ⟨hmem, hsort⟩
    rcases base'.2 out' hout' with ⟨hmem', hsort'⟩
    have heq : out' = out := by
      apply sorted_lt_eq_of_mem_iff out' out (hsort' (by simp)) (hsort (by simp))
      intro a
      rw [hmem' a, hmem a]
      simp only [List.not_mem_nil, false_or]
      constructor
      · rintro ⟨w, hw, h⟩
        exact ⟨w, hperm.mem_iff.2 hw, h⟩
      · rintro ⟨w, hw, h⟩
        exact ⟨w, hperm.mem_iff.1 hw, h⟩
    rw [show normalize_secondary_ids caps raw'
        = List.foldlM (normalize_step caps) [] raw' from rfl, hout', heq]

/-- Claim C9 witness: the concrete input of the crate's own unit test,
permuted, still normalizes to the same trimmed, deduplicated output. -/
theorem normalize_secondary_ids_spec_witness :
    normalize_secondary_ids ["cap_a", "cap_b"] ["cap_a", "", "cap_b", " cap_a "] =
      Except.ok ["cap_a", "cap_b"] :=
  (normalize_secondary_ids_spec ["cap_a", "cap_b"]
      [" cap_a ", "cap_b", "", "cap_a"]).2.2
    ["cap_a", "", "cap_b", " cap_a "] ["cap_a", "cap_b"] (by decide) (by rfl)

/-- Claim C8, counterexample: `plan_for_mode` is not a function of its four
explicit inputs alone — with identical (mode, platform, probe path,
override) arguments it fails when the ambient PATH lookup cannot find the
external CLI and succeeds when it can, because `ensure_external_available`
consults that ambient state for `codex-sandbox`. -/
theorem plan_for_mode_depends_on_ambient_state :
    (plan_for_mode envWithoutCli "codex-sandbox" "Linux" "/repo/probes/p.sh" none).isOk
      = false ∧
    (plan_for_mode envWithCli "codex-sandbox" "Linux" "/repo/probes/p.sh" none).isOk
      = true ∧
    plan_for_mode envWithoutCli "codex-sandbox" "Linux" "/repo/probes/p.sh" none ≠
      plan_for_mode envWithCli "codex-sandbox" "Linux" "/repo/probes/p.sh" none := by
  refine ⟨rfl, rfl, fun h => ?_⟩
  have h1 : (plan_for_mode envWithoutCli "codex-sandbox" "Linux" "/repo/probes/p.sh"
      none).isOk = false := rfl
  have h2 : (plan_for_mode envWithCli "codex-sandbox" "Linux" "/repo/probes/p.sh"
      none).isOk = true := rfl
  rw [h] at h1
  exact Bool.noConfusion (h1.symm.trans h2)

/-- Claim C8, amended: `plan_for_mode` is deterministic and side-effect
free, and its result depends on ambient state only through the external
CLI discoverability and resolved runner name: two calls with equal explicit
inputs and equal external-CLI state yield equal results no matter what the
rest of the environment holds, and for `baseline` and `codex-full` the
result is independent of the ambient state entirely. -/
theorem plan_for_mode_pure :
    (∀ env env' : HostEnv, env.externalCliPresent = env'.externalCliPresent →
      env.externalCliCommand = env'.externalCliCommand →
      ∀ mode platform p ov,
        plan_for_mode env mode platform p ov = plan_for_mode env' mode platform p ov) ∧
    (∀ (env env' : HostEnv) platform p ov,
      plan_for_mode env "baseline" platform p ov =
        plan_for_mode env' "baseline" platform p ov) ∧
    (∀ (env env' : HostEnv) platform p ov,
      plan_for_mode env "codex-full" platform p ov =
        plan_for_mode env' "codex-full" platform p ov) := by
  refine ⟨?_, ?_, ?_⟩
  · rintro ⟨p₁, c₁, o₁⟩ ⟨p₂, c₂, o₂⟩ hp hc mode platform p ov
    simp only at hp hc
    subst hp; subst hc
    rfl
  · intro env env' platform p ov
    rfl
  · intro env env' platform p ov
    rfl

/-- Claim C8 witness: ambient-state independence at concrete inputs — two
environments that differ only in unrelated environment entries produce the
same codex-sandbox plan. -/
theorem plan_for_mode_pure_witness :
    plan_for_mode envWithCli "codex-sandbox" "Linux" "/repo/probes/p.sh" none =
      plan_for_mode envWithCliAndHome "codex-sandbox" "Linux" "/repo/probes/p.sh" none :=
  plan_for_mode_pure.1 envWithCli envWithCliAndHome rfl rfl
    "codex-sandbox" "Linux" "/repo/probes/p.sh" none

end CodexFence
